import Mathlib

/-!
Verification of the canada-energy-future data pipeline.

The development shallowly embeds the pipeline of the repository:
the CSV record parser (`useData` in the main app and the build-time
`parse.mjs` variant), the dimension indexer (`useDimensions`), the filter
engine (`useFilteredData`), the series grouper (`useChartData`) and the
per-selection cache of the dimension-data variant (`useDimensionData`).
Raw text is modelled as `List Char`; JavaScript numbers as the inductive
`JsNum` (a finite rational, `NaN`, or a signed infinity); fallible parsing
as `Except`.
-/

namespace CEF

/-- Model of a JavaScript number: a finite value (idealised as a rational),
`NaN`, or one of the two infinities. -/
inductive JsNum where
  | fin (q : ℚ)
  | nan
  | inf
  | neginf
deriving DecidableEq, Repr

/-- Whether a `JsNum` is a finite number. -/
def JsNum.isFinite : JsNum → Bool
  | .fin _ => true
  | _ => false

/-- Characters treated as whitespace by JavaScript `String.prototype.trim`
and by `Number()` coercion (the common ASCII forms plus NBSP and the BOM). -/
def isJsSpace (c : Char) : Bool :=
  c = ' ' || c = '\t' || c = '\n' || c = '\r' ||
  c = Char.ofNat 11 || c = Char.ofNat 12 || c = Char.ofNat 160 || c = Char.ofNat 65279

/-- Model of `String.prototype.trim`: drop whitespace from both ends. -/
def jsTrim (cs : List Char) : List Char :=
  ((cs.dropWhile isJsSpace).reverse.dropWhile isJsSpace).reverse

/-- Value of a list of decimal digit characters, most significant first. -/
def digitsToNat (ds : List Char) : Nat :=
  ds.foldl (fun n c => n * 10 + (c.toNat - 48)) 0

/-- Model of the JavaScript decimal-literal part of `Number(string)`:
optional sign, integer digits, optional fraction, optional exponent.
Returns `none` when the text is not a decimal numeric literal
(hexadecimal, octal and binary literal forms are not modelled). -/
def parseDecCore (t : List Char) : Option ℚ :=
  let signed : Int × List Char :=
    match t with
    | '+' :: r => (1, r)
    | '-' :: r => (-1, r)
    | _ => (1, t)
  let sign := signed.1
  let t1 := signed.2
  let intP := t1.takeWhile Char.isDigit
  let r1 := t1.dropWhile Char.isDigit
  let fracSplit : List Char × List Char :=
    match r1 with
    | '.' :: r => (r.takeWhile Char.isDigit, r.dropWhile Char.isDigit)
    | _ => ([], r1)
  let fracP := fracSplit.1
  let r2 := fracSplit.2
  let expSplit : Bool × Int × List Char :=
    match r2 with
    | 'e' :: r =>
      match r with
      | '+' :: rr => (decide ((rr.takeWhile Char.isDigit) ≠ []),
          (digitsToNat (rr.takeWhile Char.isDigit) : Int), rr.dropWhile Char.isDigit)
      | '-' :: rr => (decide ((rr.takeWhile Char.isDigit) ≠ []),
          -(digitsToNat (rr.takeWhile Char.isDigit) : Int), rr.dropWhile Char.isDigit)
      | _ => (decide ((r.takeWhile Char.isDigit) ≠ []),
          (digitsToNat (r.takeWhile Char.isDigit) : Int), r.dropWhile Char.isDigit)
    | 'E' :: r =>
      match r with
      | '+' :: rr => (decide ((rr.takeWhile Char.isDigit) ≠ []),
          (digitsToNat (rr.takeWhile Char.isDigit) : Int), rr.dropWhile Char.isDigit)
      | '-' :: rr => (decide ((rr.takeWhile Char.isDigit) ≠ []),
          -(digitsToNat (rr.takeWhile Char.isDigit) : Int), rr.dropWhile Char.isDigit)
      | _ => (decide ((r.takeWhile Char.isDigit) ≠ []),
          (digitsToNat (r.takeWhile Char.isDigit) : Int), r.dropWhile Char.isDigit)
    | _ => (true, 0, r2)
  if intP = [] ∧ fracP = [] then none
  else if expSplit.1 = false then none
  else if expSplit.2.2 ≠ [] then none
  else
    let mant : Int := sign * (digitsToNat intP * 10 ^ fracP.length + digitsToNat fracP)
    let ex : Int := expSplit.2.1 - fracP.length
    if 0 ≤ ex then some (mkRat (mant * (10 : Int) ^ ex.toNat) 1)
    else some (mkRat mant ((10 : Nat) ^ (-ex).toNat))

/-- Model of JavaScript `Number(string)` coercion: trims whitespace, maps the
empty string to `0`, recognises the `Infinity` literals, parses decimal
literals, and yields `NaN` for everything else. -/
def jsStrToNum (s : String) : JsNum :=
  let t := jsTrim s.data
  if t = [] then .fin 0
  else if t = "Infinity".data ∨ t = "+Infinity".data then .inf
  else if t = "-Infinity".data then .neginf
  else
    match parseDecCore t with
    | some q => .fin q
    | none => .nan

/-- Decimal digits of the fractional part `rem / den`, up to `k` digits,
stopping when the remainder is exhausted. -/
def fracDigitsStr : Nat → Nat → Nat → String
  | _, _, 0 => ""
  | rem, den, k + 1 =>
    if rem = 0 then ""
    else toString (rem * 10 / den) ++ fracDigitsStr (rem * 10 % den) den k

/-- Decimal rendering of a rational, approximating how JavaScript prints a
finite number: optional minus sign, integer part, and (when the value is not
integral) a dot followed by up to 17 fractional digits. -/
def ratToJsString (q : ℚ) : String :=
  let a := q.num.natAbs
  let d := q.den
  let sgn := if q < 0 then "-" else ""
  if a % d = 0 then sgn ++ toString (a / d)
  else sgn ++ toString (a / d) ++ "." ++ fracDigitsStr (a % d) d 17

/-- Model of the JavaScript template-literal stringification of a number,
as in the `${Year}` and `${datum[dimension]}` interpolations. -/
def jsNumToString : JsNum → String
  | .fin q => ratToJsString q
  | .nan => "NaN"
  | .inf => "Infinity"
  | .neginf => "-Infinity"

/-- Split at `\r\n` or `\n`, accumulator-based: models the in-app
`csv.split(/\r?\n/g)` of `useData`; a lone `\r` is not a separator. -/
def splitLinesAux : List Char → List Char → List (List Char)
  | [], acc => [acc.reverse]
  | '\r' :: '\n' :: rest, acc => acc.reverse :: splitLinesAux rest []
  | '\n' :: rest, acc => acc.reverse :: splitLinesAux rest []
  | c :: rest, acc => splitLinesAux rest (c :: acc)

/-- Model of the in-app `split(/\r?\n/g)`. -/
def splitLines (cs : List Char) : List (List Char) :=
  splitLinesAux cs []

/-- Split only at the two-character sequence `\r\n`: models the build-time
`csv.split(/\r\n/g)` of `parse.mjs`. -/
def splitCRLFAux : List Char → List Char → List (List Char)
  | [], acc => [acc.reverse]
  | '\r' :: '\n' :: rest, acc => acc.reverse :: splitCRLFAux rest []
  | c :: rest, acc => splitCRLFAux rest (c :: acc)

/-- Model of the build-time `split(/\r\n/g)`. -/
def splitCRLF (cs : List Char) : List (List Char) :=
  splitCRLFAux cs []

/-- Split at commas: models `line.split(/,/g)`. -/
def splitCommasAux : List Char → List Char → List (List Char)
  | [], acc => [acc.reverse]
  | ',' :: rest, acc => acc.reverse :: splitCommasAux rest []
  | c :: rest, acc => splitCommasAux rest (c :: acc)

/-- Model of `split(/,/g)`. -/
def splitCommas (cs : List Char) : List (List Char) :=
  splitCommasAux cs []

/-- Model of `header.replace(/"/g, "")`: remove every double-quote character. -/
def removeQuotes (cs : List Char) : List Char :=
  cs.filter (fun c => c ≠ '"')

/-- Model of the per-cell unquoting
`cell.startsWith('"') && cell.endsWith('"') ? cell.substring(1, cell.length - 1) : cell`.
For the one-character cell `"` JavaScript `substring(1, 0)` swaps its
arguments and returns the cell unchanged, hence the length guard. -/
def unquoteCell (cs : List Char) : List Char :=
  if 2 ≤ cs.length ∧ cs.head? = some '"' ∧ cs.getLast? = some '"' then
    (cs.drop 1).dropLast
  else cs

/-- Record type of the dataset, mirroring `datumSchema`:
`{Region, Scenario, Variable: string; Year, Value: number}`. -/
structure Datum where
  Region : String
  Scenario : String
  Variable : String
  Year : JsNum
  Value : JsNum
deriving DecidableEq, Repr

/-- The four named dimensions (every `Datum` key except `Value`). -/
inductive Dimension where
  | Region
  | Scenario
  | Variable
  | Year
deriving DecidableEq, Repr

/-- An active filter: a dimension together with the selected value
(the sentinel value is the string `"All"`). -/
structure Filter where
  dimension : Dimension
  value : String
deriving DecidableEq, Repr

/-- A chart series: a label and the records grouped under it. -/
structure Series where
  label : String
  data : List Datum
deriving DecidableEq, Repr

/-- Errors of the parsing pipeline: the explicit `Missing headers` throw,
the `Missing header at index …` throw inside the row mapper, and a zod
schema-validation failure. -/
inductive ParseError where
  | missingHeader
  | headerIndex
  | schemaError
deriving DecidableEq, Repr

/-- Whether an `Except` result is a success. -/
def isOkB : Except ParseError α → Bool
  | .ok _ => true
  | .error _ => false

/-- Whether a parse result is specifically the `Missing headers` failure. -/
def isMissingHeaderResult : Except ParseError (List Datum) → Bool
  | .error .missingHeader => true
  | _ => false

/-- Model of `Object.fromEntries(entries)[k]`: with duplicate keys the last
entry wins, so look the key up from the right. -/
def jsObjGet (entries : List (String × String)) (k : String) : Option String :=
  (entries.reverse.find? (fun e => decide (e.1 = k))).map (·.2)

/-- Model of the cell mapper of `useData`: pair each cell with the header at
its index, throwing `Missing header at index …` when the cell index is beyond
the header list, and unquoting fully double-quoted cells. -/
def cellsToEntries (headers : List String) : Nat → List (List Char) → Except ParseError (List (String × String))
  | _, [] => .ok []
  | i, c :: cs =>
    match headers.get? i with
    | none => .error .headerIndex
    | some h => do
      let rest ← cellsToEntries headers (i + 1) cs
      .ok ((h, String.mk (unquoteCell c)) :: rest)

/-- Model of zod `z.string()` on a field of the row object: the key must be
present (its value, produced by `Object.fromEntries`, is always a string). -/
def zodString (entries : List (String × String)) (k : String) : Except ParseError String :=
  match jsObjGet entries k with
  | some s => .ok s
  | none => .error .schemaError

/-- Model of zod `z.coerce.number()` on a field of the row object: apply
`Number()` to the raw cell and validate the result as a number, rejecting
`NaN` and the infinities (a missing key coerces to `NaN` and is likewise
rejected), so only finite values pass. -/
def zodCoerceNumber (entries : List (String × String)) (k : String) : Except ParseError JsNum :=
  match jsObjGet entries k with
  | none => .error .schemaError
  | some s =>
    match jsStrToNum s with
    | .fin q => .ok (.fin q)
    | _ => .error .schemaError

/-- Model of `datumSchema.parse` on one row object. -/
def datumFromEntries (entries : List (String × String)) : Except ParseError Datum := do
  let r ← zodString entries "Region"
  let s ← zodString entries "Scenario"
  let v ← zodString entries "Variable"
  let y ← zodCoerceNumber entries "Year"
  let vl ← zodCoerceNumber entries "Value"
  .ok ⟨r, s, v, y, vl⟩

/-- Parse one data line of `useData`: split at commas, attach headers by
position, then validate against the record schema. -/
def rowParse (headers : List String) (line : List Char) : Except ParseError Datum := do
  datumFromEntries (← cellsToEntries headers 0 (splitCommas line))

/-- Parse all data lines, failing the whole batch on the first bad row, as
`z.array(datumSchema).parse` fails when any element fails. -/
def rowsParse (headers : List String) : List (List Char) → Except ParseError (List Datum)
  | [] => .ok []
  | l :: ls => do
    let d ← rowParse headers l
    let rest ← rowsParse headers ls
    .ok (d :: rest)

/-- Model of the fetch callback of `useData` up to (not including) the final
sort: trim, split into lines at `\r?\n`, take the first line as the header
row (throwing `Missing headers` if there is none), strip its quotes, split it
at commas, and parse the remaining lines as records. -/
def rawParse (csv : List Char) : Except ParseError (List Datum) :=
  match (splitLines (jsTrim csv)).head? with
  | none => .error .missingHeader
  | some h =>
    rowsParse ((splitCommas (removeQuotes h)).map String.mk)
      ((splitLines (jsTrim csv)).drop 1)

/-- Sort key of the comparator `(a, b) => a.Year - b.Year`: parsed records
always carry finite Years (the schema rejects everything else), and a
nonfinite Year — unreachable after validation — is keyed as `0`. -/
def yearKey (d : Datum) : ℚ :=
  match d.Year with
  | .fin q => q
  | _ => 0

/-- Model of `data.sort((a, b) => a.Year - b.Year)`: a stable ascending sort
by Year (ECMAScript `Array.prototype.sort` is stable). -/
def jsSortByYear (ds : List Datum) : List Datum :=
  ds.mergeSort (fun a b => decide (yearKey a ≤ yearKey b))

/-- The full record parser of `useData`: parse, then sort ascending by Year. -/
def useDataParse (csv : String) : Except ParseError (List Datum) :=
  (rawParse csv.data).map jsSortByYear

/-- Model of the cell mapper of `parse.mjs`: it indexes `headers[index]`
without a bounds check, so an out-of-range cell is keyed under the string
`"undefined"` instead of throwing. -/
def mjsCellsToEntries (headers : List String) : Nat → List (List Char) → List (String × String)
  | _, [] => []
  | i, c :: cs =>
    ((headers.get? i).getD "undefined", String.mk (unquoteCell c)) :: mjsCellsToEntries headers (i + 1) cs

/-- Parse one data line of `parse.mjs` against the shared schema. -/
def mjsRowParse (headers : List String) (line : List Char) : Except ParseError Datum :=
  datumFromEntries (mjsCellsToEntries headers 0 (splitCommas line))

/-- Parse all data lines of `parse.mjs`, failing the whole batch on the
first bad row. -/
def mjsRowsParse (headers : List String) : List (List Char) → Except ParseError (List Datum)
  | [] => .ok []
  | l :: ls => do
    let d ← mjsRowParse headers l
    let rest ← mjsRowsParse headers ls
    .ok (d :: rest)

/-- The build-time record parser of `parse.mjs`: trim, split into lines only
at `\r\n`, take the first line as the header row, and validate the remaining
lines against the same schema (no sorting). -/
def mjsParse (csv : String) : Except ParseError (List Datum) :=
  match (splitCRLF (jsTrim csv.data)).head? with
  | none => .error .missingHeader
  | some h =>
    mjsRowsParse ((splitCommas (removeQuotes h)).map String.mk)
      ((splitCRLF (jsTrim csv.data)).drop 1)

/-- Model of iterating a JavaScript `Set` built from a list: the distinct
elements in order of first insertion, as in `Array.from(new Set(xs))`. -/
def dedupFirstAux [DecidableEq α] : List α → List α → List α
  | _, [] => []
  | seen, a :: l =>
    if a ∈ seen then dedupFirstAux seen l
    else a :: dedupFirstAux (a :: seen) l

/-- Distinct elements of a list in order of first occurrence. -/
def dedupFirst [DecidableEq α] (l : List α) : List α :=
  dedupFirstAux [] l

/-- Model of `Array.prototype.sort()` with the default comparator on an array
of strings: a stable lexicographic ascending sort. -/
def jsSortStrings (ss : List String) : List String :=
  ss.mergeSort (fun a b => decide (a ≤ b))

/-- Output record of `useDimensions`: one option list per dimension. -/
structure DimOptions where
  Scenario : List String
  Region : List String
  Variable : List String
  Year : List String
deriving DecidableEq, Repr

/-- Model of `useDimensions` (for loaded data): for each dimension, `"All"`
prepended to the sorted distinct (stringified, for `Year`) values. -/
def useDimensionsF (data : List Datum) : DimOptions :=
  ⟨"All" :: jsSortStrings (dedupFirst (data.map (·.Scenario))),
   "All" :: jsSortStrings (dedupFirst (data.map (·.Region))),
   "All" :: jsSortStrings (dedupFirst (data.map (·.Variable))),
   "All" :: jsSortStrings (dedupFirst (data.map (fun d => jsNumToString d.Year)))⟩

/-- Projection of `DimOptions` at a dimension name. -/
def dimOptions (o : DimOptions) : Dimension → List String
  | .Scenario => o.Scenario
  | .Region => o.Region
  | .Variable => o.Variable
  | .Year => o.Year

/-- Display string `${datum[dimension]}` of a record's field at a dimension. -/
def dimStr : Dimension → Datum → String
  | .Region => (·.Region)
  | .Scenario => (·.Scenario)
  | .Variable => (·.Variable)
  | .Year => fun d => jsNumToString d.Year

/-- Model of the per-filter predicate of `useFilteredData`: the sentinel
`"All"` is unconstrained, except that an unconstrained `Region` still drops
records whose Region is `"Canada"`; otherwise the stringified field must
equal the filter value. -/
def filterMatches (f : Filter) (d : Datum) : Bool :=
  if f.value = "All" then
    if f.dimension = .Region ∧ f.value = "All" then decide (d.Region ≠ "Canada") else true
  else decide (dimStr f.dimension d = f.value)

/-- Model of `useFilteredData` (for loaded data): identity on an empty filter
list, otherwise keep the records matching every filter. -/
def useFilteredDataF (data : List Datum) (filters : List Filter) : List Datum :=
  if filters = [] then data
  else data.filter (fun d => filters.all (fun f => filterMatches f d))

/-- The dimensions currently set to `"All"` (Year excluded), as computed at
the top of `useChartData`. -/
def chartAllDims (filters : List Filter) : List Dimension :=
  (filters.filter (fun f => decide (f.dimension ≠ .Year) && decide (f.value = "All"))).map (·.dimension)

/-- Whether `Region` is unconstrained (`allRegions` in `useChartData`). -/
def allRegions (filters : List Filter) : Bool :=
  decide (Dimension.Region ∈ chartAllDims filters)

/-- Whether `Variable` is unconstrained (`allVariables` in `useChartData`). -/
def allVariables (filters : List Filter) : Bool :=
  decide (Dimension.Variable ∈ chartAllDims filters)

/-- Whether `Scenario` is unconstrained (`allScenarios` in `useChartData`). -/
def allScenarios (filters : List Filter) : Bool :=
  decide (Dimension.Scenario ∈ chartAllDims filters)

/-- Model of `groupByFn`: the template literal
`${aR ? Region : ""}${aR && aV ? " - " : ""}${aV ? Variable : ""}` followed by
`" (Scenario)"` when `(aR || aV) && aS`, by `Scenario` when only `aS`, and by
nothing otherwise. -/
def groupLabel (aR aV aS : Bool) (d : Datum) : String :=
  (if aR then d.Region else "") ++
  (if aR && aV then " - " else "") ++
  (if aV then d.Variable else "") ++
  (if (aR || aV) && aS then " (" ++ d.Scenario ++ ")"
   else if aS then d.Scenario else "")

/-- The grouping key function of `useChartData` for a given filter list. -/
def chartGroupFn (filters : List Filter) : Datum → String :=
  groupLabel (allRegions filters) (allVariables filters) (allScenarios filters)

/-- Model of `Object.groupBy`: one entry per distinct key in order of first
encounter, each entry holding the subsequence of elements with that key. -/
def jsGroupBy (f : α → String) (l : List α) : List (String × List α) :=
  (dedupFirst (l.map f)).map (fun k => (k, l.filter (fun a => decide (f a = k))))

/-- Whether a string is a canonical array-index property key (a string of
digits with no leading zero, below 2^32 - 1): ECMAScript enumerates such keys
of an object first, in ascending numeric order. -/
def isArrayIndexKey (s : String) : Bool :=
  decide (s.data ≠ []) && s.data.all Char.isDigit &&
  (decide (s = "0") || decide (s.data.head? ≠ some '0')) &&
  decide (digitsToNat s.data < 4294967295)

/-- Property-key enumeration order of a JavaScript object whose keys were
created in the given order: array-index keys first in ascending numeric
order, then the remaining keys in creation order. -/
def jsEntriesKeys (ks : List String) : List String :=
  (ks.filter isArrayIndexKey).mergeSort
      (fun a b => decide (digitsToNat a.data ≤ digitsToNat b.data)) ++
  ks.filter (fun k => !isArrayIndexKey k)

/-- Value of a grouped object at a key (`undefined` never occurs for keys
taken from the object itself). -/
def jsLookupGroups (ps : List (String × List α)) (k : String) : List α :=
  ((ps.find? (fun p => decide (p.1 = k))).map (·.2)).getD []

/-- Model of `Object.entries` on a grouped object: enumerate the keys in
property order and read off each key's group. -/
def objectEntriesPairs (ps : List (String × List α)) : List (String × List α) :=
  (jsEntriesKeys (ps.map (·.1))).map (fun k => (k, jsLookupGroups ps k))

/-- Model of `useChartData` (for loaded data): group the records by
`groupByFn` and turn each entry of the resulting object into a series. -/
def useChartDataF (data : List Datum) (filters : List Filter) : List Series :=
  (objectEntriesPairs (jsGroupBy (chartGroupFn filters) data)).map (fun p => ⟨p.1, p.2⟩)

/-- Row of the pre-partitioned dimension-data variant: a validated
`[string, number, number]` tuple. -/
structure DimRow where
  category : String
  year : JsNum
  value : JsNum
deriving DecidableEq, Repr

/-- Cache key of `useDimensionData`: the template literal
`` `${Scenarios}.${Regions}` ``. -/
def cacheKey (S R : String) : String :=
  S ++ "." ++ R

/-- Read a key of the cache object. -/
def cacheGet (cache : List (String × α)) (k : String) : Option α :=
  (cache.find? (fun e => decide (e.1 = k))).map (·.2)

/-- Write a key of the cache object: overwrite in place when present,
append a new property otherwise. -/
def cacheSet : List (String × α) → String → α → List (String × α)
  | [], k, v => [(k, v)]
  | (k', v') :: rest, k, v =>
    if k' = k then (k, v) :: rest else (k', v') :: cacheSet rest k v

/-- Observable outcome of one run of the `useDimensionData` effect: the cache
afterwards, the data passed to `setDimensionData`, and the URL fetched (if a
fetch was issued). -/
structure DimEffect where
  cache : List (String × List DimRow)
  setData : Option (List DimRow)
  fetched : Option String
deriving DecidableEq, Repr

/-- Model of the `useDimensionData` effect on the success path: do nothing
until both options are selected; serve a cached entry without fetching when
the key is present; otherwise fetch, store the result under the key, and
serve it (`fetchResult` stands for the resolved, validated response). -/
def useDimensionDataEffect (cache : List (String × List DimRow))
    (S R : Option String) (fetchResult : List DimRow) : DimEffect :=
  match S, R with
  | some s, some r =>
    match cacheGet cache (cacheKey s r) with
    | some v => ⟨cache, some v, none⟩
    | none => ⟨cacheSet cache (cacheKey s r) fetchResult, some fetchResult,
        some ("/" ++ s ++ "/" ++ r ++ ".json")⟩
  | _, _ => ⟨cache, none, none⟩

/-! ## Helper lemmas -/

theorem splitLinesAux_ne_nil (cs acc : List Char) : splitLinesAux cs acc ≠ [] := by
  induction cs, acc using splitLinesAux.induct with
  | _ => simp_all [splitLinesAux]

theorem splitLines_ne_nil (cs : List Char) : splitLines cs ≠ [] :=
  splitLinesAux_ne_nil cs []

theorem mem_dedupFirstAux [DecidableEq α] (a : α) :
    ∀ (l seen : List α), a ∈ dedupFirstAux seen l ↔ a ∈ l ∧ a ∉ seen
  | [], seen => by simp [dedupFirstAux]
  | b :: l, seen => by
    by_cases hb : b ∈ seen
    · simp only [dedupFirstAux, if_pos hb, mem_dedupFirstAux a l seen, List.mem_cons]
      constructor
      · rintro ⟨h1, h2⟩; exact ⟨Or.inr h1, h2⟩
      · rintro ⟨h1 | h1, h2⟩
        · exact absurd (h1 ▸ hb) h2
        · exact ⟨h1, h2⟩
    · simp only [dedupFirstAux, if_neg hb, List.mem_cons, mem_dedupFirstAux a l (b :: seen)]
      by_cases hab : a = b
      · subst hab; tauto
      · tauto

theorem nodup_dedupFirstAux [DecidableEq α] :
    ∀ (l seen : List α), (dedupFirstAux seen l).Nodup
  | [], seen => List.nodup_nil
  | b :: l, seen => by
    by_cases hb : b ∈ seen
    · simpa [dedupFirstAux, if_pos hb] using nodup_dedupFirstAux l seen
    · simp only [dedupFirstAux, if_neg hb, List.nodup_cons]
      refine ⟨fun hmem => ?_, nodup_dedupFirstAux l (b :: seen)⟩
      exact ((mem_dedupFirstAux b l (b :: seen)).1 hmem).2 (List.mem_cons_self b seen)

theorem mem_dedupFirst [DecidableEq α] {a : α} {l : List α} :
    a ∈ dedupFirst l ↔ a ∈ l := by
  simp [dedupFirst, mem_dedupFirstAux]

theorem nodup_dedupFirst [DecidableEq α] (l : List α) : (dedupFirst l).Nodup :=
  nodup_dedupFirstAux l []

theorem dedupFirst_perm_dedup [DecidableEq α] (l : List α) :
    List.Perm (dedupFirst l) l.dedup :=
  (List.perm_ext_iff_of_nodup (nodup_dedupFirst l) l.nodup_dedup).2
    (fun a => by rw [mem_dedupFirst, List.mem_dedup])

theorem length_dedupFirst [DecidableEq α] (l : List α) :
    (dedupFirst l).length = l.dedup.length :=
  (dedupFirst_perm_dedup l).length_eq

theorem jsSortStrings_perm (ss : List String) : List.Perm (jsSortStrings ss) ss :=
  List.mergeSort_perm ss _

theorem jsSortStrings_mem {s : String} {ss : List String} :
    s ∈ jsSortStrings ss ↔ s ∈ ss :=
  (jsSortStrings_perm ss).mem_iff

theorem jsSortStrings_sorted (ss : List String) :
    (jsSortStrings ss).Pairwise (· ≤ ·) := by
  have h := @List.sorted_mergeSort String (fun a b => decide (a ≤ b))
    (fun a b c hab hbc => by
      simp only [decide_eq_true_eq] at *
      exact le_trans hab hbc)
    (fun a b => by
      simp only [Bool.or_eq_true, decide_eq_true_eq]
      exact le_total a b) ss
  exact h.imp (fun hab => of_decide_eq_true hab)

theorem jsSortStrings_nodup {ss : List String} (h : ss.Nodup) :
    (jsSortStrings ss).Nodup :=
  (jsSortStrings_perm ss).symm.nodup h

theorem string_append_eq_empty_iff (s t : String) :
    s ++ t = "" ↔ s = "" ∧ t = "" := by
  simp only [String.ext_iff, String.data_append]
  exact List.append_eq_nil

theorem zodString_ne_missingHeader (entries : List (String × String)) (k : String) :
    zodString entries k ≠ .error .missingHeader := by
  unfold zodString
  cases jsObjGet entries k <;> simp

theorem zodCoerceNumber_ne_missingHeader (entries : List (String × String)) (k : String) :
    zodCoerceNumber entries k ≠ .error .missingHeader := by
  unfold zodCoerceNumber
  cases jsObjGet entries k with
  | none => simp
  | some s => cases h : jsStrToNum s <;> simp [h]

theorem datumFromEntries_ne_missingHeader (entries : List (String × String)) :
    datumFromEntries entries ≠ .error .missingHeader := by
  unfold datumFromEntries
  cases h1 : zodString entries "Region" with
  | error e =>
    simp only [bind, Except.bind]
    intro h; cases h; exact zodString_ne_missingHeader entries "Region" h1
  | ok r =>
  cases h2 : zodString entries "Scenario" with
  | error e =>
    simp only [bind, Except.bind]
    intro h; cases h; exact zodString_ne_missingHeader entries "Scenario" h2
  | ok s =>
  cases h3 : zodString entries "Variable" with
  | error e =>
    simp only [bind, Except.bind]
    intro h; cases h; exact zodString_ne_missingHeader entries "Variable" h3
  | ok v =>
  cases h4 : zodCoerceNumber entries "Year" with
  | error e =>
    simp only [bind, Except.bind]
    intro h; cases h; exact zodCoerceNumber_ne_missingHeader entries "Year" h4
  | ok y =>
  cases h5 : zodCoerceNumber entries "Value" with
  | error e =>
    simp only [bind, Except.bind]
    intro h; cases h; exact zodCoerceNumber_ne_missingHeader entries "Value" h5
  | ok vl => simp [bind, Except.bind]

theorem cellsToEntries_ne_missingHeader (headers : List String) :
    ∀ (i : Nat) (cs : List (List Char)),
      cellsToEntries headers i cs ≠ .error .missingHeader
  | _, [] => by simp [cellsToEntries]
  | i, c :: cs => by
    unfold cellsToEntries
    cases headers.get? i with
    | none => simp
    | some h =>
      cases hrec : cellsToEntries headers (i + 1) cs with
      | error e =>
        simp only [bind, Except.bind]
        intro h; cases h; exact cellsToEntries_ne_missingHeader headers (i + 1) cs hrec
      | ok rest => simp [bind, Except.bind, hrec]

theorem rowParse_ne_missingHeader (headers : List String) (line : List Char) :
    rowParse headers line ≠ .error .missingHeader := by
  unfold rowParse
  cases h1 : cellsToEntries headers 0 (splitCommas line) with
  | error e =>
    simp only [bind, Except.bind]
    intro h; cases h; exact cellsToEntries_ne_missingHeader headers 0 _ h1
  | ok entries =>
    simp only [bind, Except.bind]
    exact datumFromEntries_ne_missingHeader entries

theorem rowsParse_ne_missingHeader (headers : List String) :
    ∀ lines : List (List Char), rowsParse headers lines ≠ .error .missingHeader
  | [] => by simp [rowsParse]
  | l :: ls => by
    unfold rowsParse
    cases h1 : rowParse headers l with
    | error e =>
      simp only [bind, Except.bind]
      intro h; cases h; exact rowParse_ne_missingHeader headers l h1
    | ok d =>
      cases h2 : rowsParse headers ls with
      | error e =>
        simp only [bind, Except.bind, h2]
        intro h; cases h; exact rowsParse_ne_missingHeader headers ls h2
      | ok rest => simp [bind, Except.bind, h2]

/-! ## Claim theorems -/

/-- C1: in `useFilteredData`, a filter `{Region, "All"}` still drops every
record whose Region is `"Canada"`, its per-record predicate being exactly
`Region ≠ "Canada"`, while an `"All"` filter on any other dimension imposes
no constraint at all. -/
theorem c1_region_all_excludes_canada :
    (∀ (data : List Datum) (filters : List Filter) (d : Datum),
        (⟨.Region, "All"⟩ : Filter) ∈ filters → d ∈ useFilteredDataF data filters →
        d.Region ≠ "Canada")
    ∧ (∀ d : Datum, filterMatches ⟨.Region, "All"⟩ d = decide (d.Region ≠ "Canada"))
    ∧ (∀ (dim : Dimension) (d : Datum), dim ≠ .Region →
        filterMatches ⟨dim, "All"⟩ d = true) := by
  refine ⟨?_, ?_, ?_⟩
  · intro data filters d hf hd
    have hne : filters ≠ [] := List.ne_nil_of_mem hf
    rw [useFilteredDataF, if_neg hne] at hd
    have hall := (List.mem_filter.1 hd).2
    have hm := (List.all_eq_true.1 hall) _ hf
    simpa [filterMatches] using hm
  · intro d
    simp [filterMatches]
  · intro dim d hdim
    simp [filterMatches, hdim]

theorem c1_region_all_excludes_canada_witness :
    (Datum.mk "ON" "Base" "Wind" (.fin 2020) (.fin 5)).Region ≠ "Canada" :=
  c1_region_all_excludes_canada.1
    [⟨"Canada", "Base", "Wind", .fin 2020, .fin 3⟩,
     ⟨"ON", "Base", "Wind", .fin 2020, .fin 5⟩]
    [⟨.Region, "All"⟩]
    ⟨"ON", "Base", "Wind", .fin 2020, .fin 5⟩
    (by decide)
    (by decide)

/-- C2 (counterexample): text with no header line — the empty text — parses
successfully to zero records instead of failing with `MissingHeaderError`. -/
theorem c2_counterexample_empty_text_parses :
    useDataParse "" = .ok [] := by
  simp [useDataParse, show rawParse "".data = .ok [] from rfl, Except.map, jsSortByYear]

/-- C2 (amended): the record parser can never fail with `MissingHeaderError`:
splitting yields at least one line for every input, so the header check never
fires; in particular the empty text yields a degenerate empty header row and
zero records. -/
theorem c2_missing_header_unreachable :
    (∀ csv : String, isMissingHeaderResult (useDataParse csv) = false)
    ∧ useDataParse "" = .ok [] := by
  refine ⟨fun csv => ?_, by
    simp [useDataParse, show rawParse "".data = .ok [] from rfl, Except.map, jsSortByYear]⟩
  unfold useDataParse rawParse
  cases hl : (splitLines (jsTrim csv.data)).head? with
  | none =>
    exact absurd (List.head?_eq_none_iff.1 hl) (splitLines_ne_nil (jsTrim csv.data))
  | some h =>
    simp only [hl, List.drop_one]
    cases hr : rowsParse ((splitCommas (removeQuotes h)).map String.mk)
        (splitLines (jsTrim csv.data)).tail with
    | error e =>
      cases e with
      | missingHeader => exact absurd hr (rowsParse_ne_missingHeader _ _)
      | headerIndex => simp [Except.map, hr, isMissingHeaderResult]
      | schemaError => simp [Except.map, hr, isMissingHeaderResult]
    | ok recs => simp [Except.map, hr, isMissingHeaderResult]

theorem zodCoerceNumber_ok_finite {entries : List (String × String)} {k : String}
    {y : JsNum} (h : zodCoerceNumber entries k = .ok y) : y.isFinite = true := by
  unfold zodCoerceNumber at h
  split at h
  · cases h
  · split at h
    · cases h; rfl
    · cases h

theorem datumFromEntries_ok_finite {entries : List (String × String)} {d : Datum}
    (h : datumFromEntries entries = .ok d) :
    d.Year.isFinite = true ∧ d.Value.isFinite = true := by
  unfold datumFromEntries at h
  cases h1 : zodString entries "Region" <;> rw [h1] at h <;>
    simp only [bind, Except.bind] at h
  case error => cases h
  cases h2 : zodString entries "Scenario" <;> rw [h2] at h
  case error => cases h
  cases h3 : zodString entries "Variable" <;> rw [h3] at h
  case error => cases h
  cases h4 : zodCoerceNumber entries "Year" <;> rw [h4] at h
  case error => cases h
  cases h5 : zodCoerceNumber entries "Value" <;> rw [h5] at h
  case error => cases h
  cases h
  exact ⟨zodCoerceNumber_ok_finite h4, zodCoerceNumber_ok_finite h5⟩

theorem rowParse_ok_finite {headers : List String} {line : List Char} {d : Datum}
    (h : rowParse headers line = .ok d) :
    d.Year.isFinite = true ∧ d.Value.isFinite = true := by
  unfold rowParse at h
  cases h1 : cellsToEntries headers 0 (splitCommas line) <;> rw [h1] at h <;>
    simp only [bind, Except.bind] at h
  case error => cases h
  exact datumFromEntries_ok_finite h

theorem rowsParse_ok_finite {headers : List String} :
    ∀ {lines : List (List Char)} {recs : List Datum},
      rowsParse headers lines = .ok recs →
      ∀ d ∈ recs, d.Year.isFinite = true ∧ d.Value.isFinite = true := by
  intro lines
  induction lines with
  | nil => intro recs h d hd; cases h; cases hd
  | cons l ls ih =>
    intro recs h d hd
    unfold rowsParse at h
    cases h1 : rowParse headers l <;> rw [h1] at h <;>
      simp only [bind, Except.bind] at h
    case error => cases h
    cases h2 : rowsParse headers ls <;> rw [h2] at h
    case error => cases h
    cases h
    rcases List.mem_cons.1 hd with rfl | hmem
    · exact rowParse_ok_finite h1
    · exact ih h2 d hmem

theorem datumFromEntries_fails_on_nonfinite {entries : List (String × String)}
    {k c : String} (hk : k = "Year" ∨ k = "Value")
    (hget : jsObjGet entries k = some c)
    (hfin : (jsStrToNum c).isFinite = false) :
    isOkB (datumFromEntries entries) = false := by
  have hz : zodCoerceNumber entries k = .error .schemaError := by
    unfold zodCoerceNumber
    rw [hget]
    cases hn : jsStrToNum c
    · rw [hn] at hfin; cases hfin
    all_goals simp [hn]
  unfold datumFromEntries
  cases h1 : zodString entries "Region" <;> simp only [bind, Except.bind]
  case error => rfl
  cases h2 : zodString entries "Scenario"
  case error => rfl
  cases h3 : zodString entries "Variable"
  case error => rfl
  cases h4 : zodCoerceNumber entries "Year"
  case error => rfl
  cases h5 : zodCoerceNumber entries "Value"
  case error => rfl
  rcases hk with rfl | rfl
  · rw [h4] at hz; cases hz
  · rw [h5] at hz; cases hz

theorem rowsParse_fail_fast {headers : List String} :
    ∀ {lines : List (List Char)} {line : List Char}, line ∈ lines →
      isOkB (rowParse headers line) = false →
      isOkB (rowsParse headers lines) = false := by
  intro lines
  induction lines with
  | nil => intro line h; cases h
  | cons l ls ih =>
    intro line hmem hfail
    unfold rowsParse
    rcases List.mem_cons.1 hmem with rfl | hmem
    · cases h1 : rowParse headers line
      · rfl
      · rw [h1] at hfail; cases hfail
    · cases h1 : rowParse headers l
      · rfl
      · simp only [bind, Except.bind]
        have := ih hmem hfail
        cases h2 : rowsParse headers ls
        · rfl
        · rw [h2] at this; cases this

/-- C3: if any row's `Year` or `Value` cell does not coerce to a finite
number the whole parse fails (the row's schema validation fails, and one
failing row fails the whole batch — no partial acceptance); consequently
every record of a successful parse has finite `Year` and `Value`. -/
theorem c3_fail_fast_and_finite :
    (∀ (csv : String) (recs : List Datum), useDataParse csv = .ok recs →
        ∀ d ∈ recs, d.Year.isFinite = true ∧ d.Value.isFinite = true)
    ∧ (∀ (entries : List (String × String)) (k c : String),
        k = "Year" ∨ k = "Value" → jsObjGet entries k = some c →
        (jsStrToNum c).isFinite = false →
        isOkB (datumFromEntries entries) = false)
    ∧ (∀ (headers : List String) (lines : List (List Char)) (line : List Char),
        line ∈ lines → isOkB (rowParse headers line) = false →
        isOkB (rowsParse headers lines) = false) := by
  refine ⟨?_, ?_, ?_⟩
  · intro csv recs h d hd
    unfold useDataParse at h
    cases h1 : rawParse csv.data <;> rw [h1] at h <;>
      simp only [Except.map] at h
    case error => cases h
    cases h
    unfold rawParse at h1
    cases h2 : (splitLines (jsTrim csv.data)).head? <;> rw [h2] at h1
    case none => cases h1
    have hmem : d ∈ _ := List.mem_mergeSort.1 hd
    exact rowsParse_ok_finite h1 d hmem
  · intro entries k c hk hget hfin
    exact datumFromEntries_fails_on_nonfinite hk hget hfin
  · intro headers lines line hmem hfail
    exact rowsParse_fail_fast hmem hfail

theorem c3_fail_fast_and_finite_witness :
    ((Datum.mk "ON" "Base" "Wind" (.fin 2020) (.fin 5)).Year.isFinite = true
      ∧ (Datum.mk "ON" "Base" "Wind" (.fin 2020) (.fin 5)).Value.isFinite = true)
    ∧ isOkB (datumFromEntries [("Year", "abc")]) = false
    ∧ isOkB (rowsParse ["Region"] [['x', ',', 'y']]) = false := by
  refine ⟨?_, ?_, ?_⟩
  · exact c3_fail_fast_and_finite.1 "Region,Scenario,Variable,Year,Value\nON,Base,Wind,2020,5"
      [⟨"ON", "Base", "Wind", .fin 2020, .fin 5⟩]
      (by simp [useDataParse,
        show rawParse ("Region,Scenario,Variable,Year,Value\nON,Base,Wind,2020,5").data
          = .ok [⟨"ON", "Base", "Wind", .fin 2020, .fin 5⟩] from rfl,
        Except.map, jsSortByYear])
      ⟨"ON", "Base", "Wind", .fin 2020, .fin 5⟩ (by simp)
  · exact c3_fail_fast_and_finite.2.1 [("Year", "abc")] "Year" "abc" (Or.inl rfl) rfl rfl
  · exact c3_fail_fast_and_finite.2.2 ["Region"] [['x', ',', 'y']] ['x', ',', 'y']
      (by simp) rfl

theorem yearLe_trans (a b c : Datum) :
    decide (yearKey a ≤ yearKey b) = true → decide (yearKey b ≤ yearKey c) = true →
    decide (yearKey a ≤ yearKey c) = true := by
  simp only [decide_eq_true_eq]
  exact le_trans

theorem yearLe_total (a b : Datum) :
    (decide (yearKey a ≤ yearKey b) || decide (yearKey b ≤ yearKey a)) = true := by
  simp only [Bool.or_eq_true, decide_eq_true_eq]
  exact le_total _ _

theorem jsSortByYear_filter_year (raws : List Datum) (y : JsNum) :
    (jsSortByYear raws).filter (fun d => decide (d.Year = y))
      = raws.filter (fun d => decide (d.Year = y)) := by
  have hall : ∀ a ∈ raws.filter (fun d => decide (d.Year = y)), a.Year = y := by
    intro a ha
    exact of_decide_eq_true ((List.mem_filter.1 ha).2)
  have hc : (raws.filter (fun d => decide (d.Year = y))).Pairwise
      (fun a b => decide (yearKey a ≤ yearKey b) = true) := by
    refine List.pairwise_of_forall_mem_list (fun a ha b hb => ?_)
    have h1 : yearKey a = yearKey b := by
      unfold yearKey
      rw [hall a ha, hall b hb]
    simp [h1]
  have h1 : List.Sublist (raws.filter (fun d => decide (d.Year = y))) (jsSortByYear raws) :=
    List.sublist_mergeSort yearLe_trans yearLe_total hc (List.filter_sublist raws)
  have h2 : List.Sublist (raws.filter (fun d => decide (d.Year = y)))
      ((jsSortByYear raws).filter (fun d => decide (d.Year = y))) := by
    have heq : (raws.filter (fun d => decide (d.Year = y))).filter
        (fun d => decide (d.Year = y)) = raws.filter (fun d => decide (d.Year = y)) :=
      List.filter_eq_self.2 (fun a ha => decide_eq_true (hall a ha))
    simpa [heq] using h1.filter (fun d => decide (d.Year = y))
  have h3 : List.Perm ((jsSortByYear raws).filter (fun d => decide (d.Year = y)))
      (raws.filter (fun d => decide (d.Year = y))) :=
    (List.mergeSort_perm raws _).filter _
  exact (h2.eq_of_length h3.length_eq.symm).symm

/-- C7: a successful parse is sorted ascending by Year (every earlier record's
finite Year is at most every later one's), and the sort is stable: for each
Year value, the records with that Year appear in the same order as in the
unsorted parse of the rows. -/
theorem c7_sorted_and_stable :
    (∀ (csv : String) (recs : List Datum), useDataParse csv = .ok recs →
        recs.Pairwise (fun a b => ∀ x z, a.Year = .fin x → b.Year = .fin z → x ≤ z))
    ∧ (∀ (csv : String) (raws : List Datum), rawParse csv.data = .ok raws →
        useDataParse csv = .ok (jsSortByYear raws) ∧
        ∀ y : JsNum, (jsSortByYear raws).filter (fun d => decide (d.Year = y))
          = raws.filter (fun d => decide (d.Year = y))) := by
  constructor
  · intro csv recs h
    unfold useDataParse at h
    cases h1 : rawParse csv.data with
    | error e => rw [h1] at h; cases h
    | ok raws =>
      rw [h1] at h
      simp only [Except.map] at h
      cases h
      have hs := @List.sorted_mergeSort Datum
        (fun a b => decide (yearKey a ≤ yearKey b)) yearLe_trans yearLe_total raws
      refine hs.imp (fun {a b} hab x z hx hz => ?_)
      have hle : yearKey a ≤ yearKey b := of_decide_eq_true hab
      rwa [show yearKey a = x by simp [yearKey, hx],
        show yearKey b = z by simp [yearKey, hz]] at hle
  · intro csv raws h
    refine ⟨?_, fun y => jsSortByYear_filter_year raws y⟩
    unfold useDataParse
    rw [h]
    rfl

theorem c7_sorted_and_stable_witness :
    List.Pairwise (fun a b : Datum => ∀ x z, a.Year = .fin x → b.Year = .fin z → x ≤ z)
      (jsSortByYear [⟨"ON", "Base", "Wind", .fin 2020, .fin 5⟩])
    ∧ (jsSortByYear [⟨"ON", "Base", "Wind", .fin 2020, .fin 5⟩]).filter
        (fun d => decide (d.Year = .fin 2020))
      = [(⟨"ON", "Base", "Wind", .fin 2020, .fin 5⟩ : Datum)].filter
        (fun d => decide (d.Year = .fin 2020)) :=
  ⟨c7_sorted_and_stable.1 "Region,Scenario,Variable,Year,Value\nON,Base,Wind,2020,5"
      (jsSortByYear [⟨"ON", "Base", "Wind", .fin 2020, .fin 5⟩]) rfl,
   (c7_sorted_and_stable.2 "Region,Scenario,Variable,Year,Value\nON,Base,Wind,2020,5"
      [⟨"ON", "Base", "Wind", .fin 2020, .fin 5⟩] rfl).2 (.fin 2020)⟩

theorem string_empty_append (s : String) : "" ++ s = s := by
  simp [String.ext_iff]

theorem string_append_empty (s : String) : s ++ "" = s := by
  simp [String.ext_iff]

theorem dimOptions_useDimensionsF (data : List Datum) (D : Dimension) :
    dimOptions (useDimensionsF data) D
      = "All" :: jsSortStrings (dedupFirst (data.map (dimStr D))) := by
  cases D <;> rfl

/-- C5: for a non-empty record sequence and any dimension, the option list
starts with `"All"`, followed by exactly the distinct stringified values of
that dimension — no duplicates, sorted ascending lexicographically — and its
total size is the distinct-value count plus one. -/
theorem c5_dimension_options (data : List Datum) (D : Dimension) (hne : data ≠ []) :
    (dimOptions (useDimensionsF data) D).head? = some "All"
    ∧ (dimOptions (useDimensionsF data) D).tail.Pairwise (· ≤ ·)
    ∧ (dimOptions (useDimensionsF data) D).tail.Nodup
    ∧ (∀ s, s ∈ (dimOptions (useDimensionsF data) D).tail ↔ s ∈ data.map (dimStr D))
    ∧ (dimOptions (useDimensionsF data) D).length
        = (data.map (dimStr D)).dedup.length + 1 := by
  rw [dimOptions_useDimensionsF]
  refine ⟨rfl, ?_, ?_, ?_, ?_⟩
  · simpa using jsSortStrings_sorted (dedupFirst (data.map (dimStr D)))
  · simpa using jsSortStrings_nodup (nodup_dedupFirst (data.map (dimStr D)))
  · intro s
    rw [List.tail_cons]
    exact jsSortStrings_mem.trans mem_dedupFirst
  · simp only [List.length_cons]
    rw [(jsSortStrings_perm (dedupFirst (data.map (dimStr D)))).length_eq,
      length_dedupFirst]

theorem c5_dimension_options_witness :
    (dimOptions (useDimensionsF [⟨"ON", "Base", "Wind", .fin 2020, .fin 5⟩]) .Region).head?
        = some "All"
    ∧ ("ON" ∈ (dimOptions (useDimensionsF [⟨"ON", "Base", "Wind", .fin 2020, .fin 5⟩]) .Region).tail
        ↔ "ON" ∈ [(⟨"ON", "Base", "Wind", .fin 2020, .fin 5⟩ : Datum)].map (dimStr .Region))
    ∧ (dimOptions (useDimensionsF [⟨"ON", "Base", "Wind", .fin 2020, .fin 5⟩]) .Region).length
        = ([(⟨"ON", "Base", "Wind", .fin 2020, .fin 5⟩ : Datum)].map (dimStr .Region)).dedup.length + 1 :=
  ⟨(c5_dimension_options [⟨"ON", "Base", "Wind", .fin 2020, .fin 5⟩] .Region (by simp)).1,
   (c5_dimension_options [⟨"ON", "Base", "Wind", .fin 2020, .fin 5⟩] .Region (by simp)).2.2.2.1 "ON",
   (c5_dimension_options [⟨"ON", "Base", "Wind", .fin 2020, .fin 5⟩] .Region (by simp)).2.2.2.2⟩

/-- Label of a series as the specification words it: `"{R} - {V}"` when both
Region and Variable are unconstrained, `"{R}"` when only Region, `"{V}"` when
only Variable, `""` when neither; with `" ({S})"` appended when Scenario is
unconstrained and Region or Variable is present, and the bare Scenario value
alone when Scenario is unconstrained and neither Region nor Variable is. -/
def specSeriesLabel (aR aV aS : Bool) (d : Datum) : String :=
  let base :=
    if aR && aV then d.Region ++ " - " ++ d.Variable
    else if aR then d.Region
    else if aV then d.Variable
    else ""
  if aS then (if aR || aV then base ++ " (" ++ d.Scenario ++ ")" else d.Scenario)
  else base

/-- C4: the grouping key of `useChartData` equals, for every combination of
unconstrained dimensions and every record, the label the specification
describes. -/
theorem c4_label_composition (aR aV aS : Bool) (d : Datum) :
    groupLabel aR aV aS d = specSeriesLabel aR aV aS d := by
  cases aR <;> cases aV <;> cases aS <;>
    simp [groupLabel, specSeriesLabel, string_empty_append, string_append_empty,
      String.append_assoc]

theorem dedupFirstAux_all_seen [DecidableEq α] :
    ∀ {l seen : List α}, (∀ x ∈ l, x ∈ seen) → dedupFirstAux seen l = []
  | [], _, _ => rfl
  | a :: l, seen, h => by
    rw [dedupFirstAux, if_pos (h a (List.mem_cons_self a l))]
    exact dedupFirstAux_all_seen (fun x hx => h x (List.mem_cons_of_mem a hx))

theorem dedupFirst_const {data : List Datum} (c : String) (hne : data ≠ []) :
    dedupFirst (data.map (fun _ => c)) = [c] := by
  cases data with
  | nil => exact absurd rfl hne
  | cons d ds =>
    show dedupFirstAux [] (c :: ds.map (fun _ => c)) = [c]
    rw [dedupFirstAux, if_neg (List.not_mem_nil c)]
    rw [dedupFirstAux_all_seen]
    intro x hx
    rcases List.mem_map.1 hx with ⟨_, _, rfl⟩
    exact List.mem_cons_self c []

theorem groupLabel_false_false_false (d : Datum) : groupLabel false false false d = "" := rfl

theorem groupLabel_eq_empty_iff (aR aV aS : Bool) (d : Datum) :
    groupLabel aR aV aS d = "" ↔
      ((aR = false ∧ aV = false ∧ aS = false)
        ∨ (aR = true ∧ aV = false ∧ aS = false ∧ d.Region = "")
        ∨ (aR = false ∧ aV = true ∧ aS = false ∧ d.Variable = "")
        ∨ (aR = false ∧ aV = false ∧ aS = true ∧ d.Scenario = "")) := by
  have hdash : (" - " : String) ≠ "" := by decide
  have hpar : (" (" : String) ≠ "" := by decide
  cases aR <;> cases aV <;> cases aS <;>
    simp [groupLabel, string_empty_append, string_append_empty,
      string_append_eq_empty_iff, hdash, hpar]

/-- C8 (amended): a series label is the empty string exactly when either all
three of Region, Variable, Scenario are constrained, or exactly one of them
is unconstrained and the record's value on that dimension is itself the empty
string; and when all three are constrained, all filtered records form exactly
one series with an empty label. -/
theorem c8_empty_label_characterisation :
    (∀ (aR aV aS : Bool) (d : Datum), groupLabel aR aV aS d = "" ↔
      ((aR = false ∧ aV = false ∧ aS = false)
        ∨ (aR = true ∧ aV = false ∧ aS = false ∧ d.Region = "")
        ∨ (aR = false ∧ aV = true ∧ aS = false ∧ d.Variable = "")
        ∨ (aR = false ∧ aV = false ∧ aS = true ∧ d.Scenario = "")))
    ∧ (∀ (filters : List Filter) (data : List Datum),
        allRegions filters = false → allVariables filters = false →
        allScenarios filters = false → data ≠ [] →
        useChartDataF data filters = [⟨"", data⟩]) := by
  refine ⟨groupLabel_eq_empty_iff, ?_⟩
  intro filters data hR hV hS hne
  have hfn : chartGroupFn filters = fun _ => "" := by
    unfold chartGroupFn
    rw [hR, hV, hS]
    funext d
    exact groupLabel_false_false_false d
  unfold useChartDataF jsGroupBy
  rw [hfn, dedupFirst_const "" hne]
  have hfilter : data.filter (fun a => decide ((fun _ => "") a = "")) = data :=
    List.filter_eq_self.2 (fun a _ => by simp)
  simp only [List.map_cons, List.map_nil, hfilter]
  unfold objectEntriesPairs jsEntriesKeys
  have hidx : isArrayIndexKey "" = false := rfl
  simp [hidx, jsLookupGroups]

theorem c8_empty_label_characterisation_witness :
    (groupLabel false false false (Datum.mk "ON" "Base" "Wind" (.fin 2020) (.fin 5)) = "" ↔
      ((false = false ∧ false = false ∧ false = false)
        ∨ (false = true ∧ false = false ∧ false = false
            ∧ (Datum.mk "ON" "Base" "Wind" (.fin 2020) (.fin 5)).Region = "")
        ∨ (false = false ∧ false = true ∧ false = false
            ∧ (Datum.mk "ON" "Base" "Wind" (.fin 2020) (.fin 5)).Variable = "")
        ∨ (false = false ∧ false = false ∧ false = true
            ∧ (Datum.mk "ON" "Base" "Wind" (.fin 2020) (.fin 5)).Scenario = "")))
    ∧ useChartDataF [⟨"ON", "Base", "Wind", .fin 2020, .fin 5⟩]
        [⟨.Scenario, "Current Measures"⟩]
      = [⟨"", [⟨"ON", "Base", "Wind", .fin 2020, .fin 5⟩]⟩] :=
  ⟨c8_empty_label_characterisation.1 false false false ⟨"ON", "Base", "Wind", .fin 2020, .fin 5⟩,
   c8_empty_label_characterisation.2 [⟨.Scenario, "Current Measures"⟩]
     [⟨"ON", "Base", "Wind", .fin 2020, .fin 5⟩] rfl rfl rfl (by simp)⟩

/-- C8 (counterexample): with Region unconstrained (filter value `"All"`) and
a record whose Region is the empty string, the series label is the empty
string even though not all of Region, Variable, Scenario are constrained. -/
theorem c8_counterexample_empty_region_label :
    allRegions [⟨.Region, "All"⟩] = true
    ∧ groupLabel (allRegions [⟨.Region, "All"⟩]) (allVariables [⟨.Region, "All"⟩])
        (allScenarios [⟨.Region, "All"⟩]) ⟨"", "Base", "Wind", .fin 2020, .fin 5⟩ = "" :=
  ⟨rfl, rfl⟩

theorem find?_map_key (g : String → List α) :
    ∀ {ks : List String} {k : String}, ks.Nodup → k ∈ ks →
      (ks.map (fun x => (x, g x))).find? (fun p => decide (p.1 = k)) = some (k, g k) := by
  intro ks
  induction ks with
  | nil => intro k _ hk; cases hk
  | cons a ks ih =>
    intro k hnd hk
    rcases List.mem_cons.1 hk with rfl | hmem
    · rw [List.map_cons, List.find?_cons_of_pos _ (by simp)]
    · have hne : a ≠ k := fun h => (List.nodup_cons.1 hnd).1 (h ▸ hmem)
      rw [List.map_cons, List.find?_cons_of_neg _ (by simp [hne])]
      exact ih (List.nodup_cons.1 hnd).2 hmem

theorem jsLookupGroups_groupBy (f : α → String) (l : List α) {k : String}
    (hk : k ∈ dedupFirst (l.map f)) :
    jsLookupGroups (jsGroupBy f l) k = l.filter (fun a => decide (f a = k)) := by
  have h := find?_map_key (fun x => l.filter (fun a => decide (f a = x)))
    (nodup_dedupFirst (l.map f)) hk
  unfold jsLookupGroups jsGroupBy
  rw [h]
  rfl

theorem jsEntriesKeys_perm (ks : List String) : List.Perm (jsEntriesKeys ks) ks := by
  unfold jsEntriesKeys
  have h1 := List.mergeSort_perm (ks.filter isArrayIndexKey)
    (fun a b => decide (digitsToNat a.data ≤ digitsToNat b.data))
  exact (h1.append (List.Perm.refl (ks.filter (fun k => !isArrayIndexKey k)))).trans
    (List.filter_append_perm isArrayIndexKey ks)

theorem jsGroupBy_keys (f : α → String) (l : List α) :
    (jsGroupBy f l).map (·.1) = dedupFirst (l.map f) := by
  unfold jsGroupBy
  rw [List.map_map]
  exact List.map_id' _

theorem useChartDataF_eq (data : List Datum) (filters : List Filter) :
    useChartDataF data filters
      = (jsEntriesKeys (dedupFirst (data.map (chartGroupFn filters)))).map
          (fun k => ⟨k, data.filter (fun d => decide (chartGroupFn filters d = k))⟩) := by
  unfold useChartDataF objectEntriesPairs
  rw [jsGroupBy_keys, List.map_map]
  refine List.map_congr_left (fun k hk => ?_)
  have hk2 : k ∈ dedupFirst (data.map (chartGroupFn filters)) :=
    (jsEntriesKeys_perm _).mem_iff.1 hk
  simp [Function.comp, jsLookupGroups_groupBy _ _ hk2]

theorem join_groups_perm (f : α → String) :
    ∀ (ks : List String) (l : List α), ks.Nodup → (∀ a ∈ l, f a ∈ ks) →
      List.Perm ((ks.map (fun k => l.filter (fun a => decide (f a = k)))).flatten) l := by
  intro ks
  induction ks with
  | nil =>
    intro l _ hcover
    cases l with
    | nil => simp
    | cons a l => exact absurd (hcover a (List.mem_cons_self a l)) (List.not_mem_nil _)
  | cons k ks ih =>
    intro l hnd hcover
    have hknotin : k ∉ ks := (List.nodup_cons.1 hnd).1
    have hmap : ∀ x ∈ ks, l.filter (fun a => decide (f a = x))
        = (l.filter (fun a => !decide (f a = k))).filter (fun a => decide (f a = x)) := by
      intro x hx
      rw [List.filter_filter]
      refine (List.filter_congr (fun a _ => ?_)).symm.symm.symm
      by_cases hfa : f a = x
      · have hxk : x ≠ k := fun h => hknotin (h ▸ hx)
        simp [hfa, hxk]
      · simp [hfa]
    rw [List.map_cons, List.flatten_cons,
      List.map_congr_left (fun x hx => hmap x hx)]
    have hcover2 : ∀ a ∈ l.filter (fun a => !decide (f a = k)), f a ∈ ks := by
      intro a ha
      have h1 := List.mem_filter.1 ha
      have h2 : f a ≠ k := by simpa using h1.2
      rcases List.mem_cons.1 (hcover a h1.1) with h | h
      · exact absurd h h2
      · exact h
    have hperm := ih (l.filter (fun a => !decide (f a = k)))
      (List.nodup_cons.1 hnd).2 hcover2
    exact ((List.Perm.append_left (l.filter (fun a => decide (f a = k))) hperm)).trans
      (List.filter_append_perm (fun a => decide (f a = k)) l)

/-- C6 (amended): the series grouper is a total disjoint cover — every series
is non-empty, series labels are distinct, each series holds exactly the
subsequence of records with its label, and the concatenation of all series is
a permutation of the filtered input; the series order is the JavaScript
object property order of the labels: labels that are canonical array-index
strings first, in ascending numeric order, then the remaining labels in
insertion order of first occurrence. -/
theorem c6_series_total_disjoint_cover (data : List Datum) (filters : List Filter) :
    (∀ s ∈ useChartDataF data filters, s.data ≠ [])
    ∧ ((useChartDataF data filters).map Series.label).Nodup
    ∧ (∀ s ∈ useChartDataF data filters,
        s.data = data.filter (fun d => decide (chartGroupFn filters d = s.label)))
    ∧ List.Perm ((useChartDataF data filters).map Series.data).flatten data
    ∧ (useChartDataF data filters).map Series.label
        = jsEntriesKeys (dedupFirst (data.map (chartGroupFn filters))) := by
  have hlabels : (useChartDataF data filters).map Series.label
      = jsEntriesKeys (dedupFirst (data.map (chartGroupFn filters))) := by
    rw [useChartDataF_eq, List.map_map]
    exact List.map_id' _
  refine ⟨?_, ?_, ?_, ?_, hlabels⟩
  · intro s hs
    rw [useChartDataF_eq] at hs
    rcases List.mem_map.1 hs with ⟨k, hk, rfl⟩
    have hk2 : k ∈ data.map (chartGroupFn filters) :=
      mem_dedupFirst.1 ((jsEntriesKeys_perm _).mem_iff.1 hk)
    rcases List.mem_map.1 hk2 with ⟨d, hd, rfl⟩
    exact List.ne_nil_of_mem (List.mem_filter.2 ⟨hd, by simp⟩)
  · rw [hlabels]
    exact (jsEntriesKeys_perm _).symm.nodup (nodup_dedupFirst _)
  · intro s hs
    rw [useChartDataF_eq] at hs
    rcases List.mem_map.1 hs with ⟨k, _, rfl⟩
    rfl
  · rw [useChartDataF_eq, List.map_map]
    have hj : (List.map (Series.data ∘ fun k =>
          (⟨k, data.filter (fun d => decide (chartGroupFn filters d = k))⟩ : Series))
          (jsEntriesKeys (dedupFirst (data.map (chartGroupFn filters)))))
        = (jsEntriesKeys (dedupFirst (data.map (chartGroupFn filters)))).map
          (fun k => data.filter (fun d => decide (chartGroupFn filters d = k))) := by
      simp [Function.comp]
    rw [hj]
    refine join_groups_perm (chartGroupFn filters) _ data
      ((jsEntriesKeys_perm _).symm.nodup (nodup_dedupFirst _)) ?_
    intro a ha
    exact (jsEntriesKeys_perm _).mem_iff.2 (mem_dedupFirst.2 (List.mem_map_of_mem _ ha))

theorem c6_series_total_disjoint_cover_witness :
    ((⟨"ON", [⟨"ON", "Base", "Wind", .fin 2020, .fin 5⟩]⟩ : Series).data ≠ [])
    ∧ (⟨"ON", [⟨"ON", "Base", "Wind", .fin 2020, .fin 5⟩]⟩ : Series).data
        = [(⟨"ON", "Base", "Wind", .fin 2020, .fin 5⟩ : Datum)].filter
            (fun d => decide (chartGroupFn [⟨.Region, "All"⟩] d
              = (⟨"ON", [⟨"ON", "Base", "Wind", .fin 2020, .fin 5⟩]⟩ : Series).label)) :=
  ⟨(c6_series_total_disjoint_cover [⟨"ON", "Base", "Wind", .fin 2020, .fin 5⟩]
      [⟨.Region, "All"⟩]).1 ⟨"ON", [⟨"ON", "Base", "Wind", .fin 2020, .fin 5⟩]⟩
      (by simp [useChartDataF, objectEntriesPairs, jsGroupBy, chartGroupFn, allRegions,
        allVariables, allScenarios, chartAllDims, groupLabel, dedupFirst, dedupFirstAux,
        jsEntriesKeys, isArrayIndexKey, digitsToNat, jsLookupGroups, string_append_empty]),
   (c6_series_total_disjoint_cover [⟨"ON", "Base", "Wind", .fin 2020, .fin 5⟩]
      [⟨.Region, "All"⟩]).2.2.1 ⟨"ON", [⟨"ON", "Base", "Wind", .fin 2020, .fin 5⟩]⟩
      (by simp [useChartDataF, objectEntriesPairs, jsGroupBy, chartGroupFn, allRegions,
        allVariables, allScenarios, chartAllDims, groupLabel, dedupFirst, dedupFirstAux,
        jsEntriesKeys, isArrayIndexKey, digitsToNat, jsLookupGroups, string_append_empty])⟩

/-- C6 (counterexample): with two records whose Regions are the array-index
strings `"1"` and `"0"` and Region unconstrained, the series labels come out
in ascending numeric key order `["0", "1"]`, not in insertion order of
first-seen label `["1", "0"]`. -/
theorem c6_counterexample_numeric_labels :
    (useChartDataF
        [⟨"1", "s", "v", .fin 2020, .fin 1⟩, ⟨"0", "s", "v", .fin 2020, .fin 2⟩]
        [⟨.Region, "All"⟩]).map Series.label = ["0", "1"]
    ∧ dedupFirst ([⟨"1", "s", "v", .fin 2020, .fin 1⟩,
        (⟨"0", "s", "v", .fin 2020, .fin 2⟩ : Datum)].map
        (chartGroupFn [⟨.Region, "All"⟩])) = ["1", "0"]
    ∧ (["0", "1"] : List String) ≠ ["1", "0"] := by
  refine ⟨?_, by decide, by decide⟩
  simp [useChartDataF, objectEntriesPairs, jsGroupBy, chartGroupFn, allRegions,
    allVariables, allScenarios, chartAllDims, groupLabel, dedupFirst, dedupFirstAux,
    jsEntriesKeys, isArrayIndexKey, digitsToNat, jsLookupGroups, string_append_empty,
    List.mergeSort, List.splitInTwo, List.splitAt, List.splitAt.go, List.merge]

theorem append_dot_inj :
    ∀ (u : List Char) {v : List Char} (w : List Char) {z : List Char},
      '.' ∉ u → '.' ∉ w → u ++ '.' :: v = w ++ '.' :: z → u = w ∧ v = z := by
  intro u
  induction u with
  | nil =>
    intro v w z _ hw h
    cases w with
    | nil => exact ⟨rfl, by injection h⟩
    | cons c w2 =>
      injection h with h1 h2
      exact absurd (h1 ▸ List.mem_cons_self c w2) hw
  | cons c u2 ih =>
    intro v w z hu hw h
    cases w with
    | nil =>
      injection h with h1 h2
      exact absurd (h1 ▸ List.mem_cons_self c u2) hu
    | cons c2 w2 =>
      injection h with h1 h2
      subst h1
      have hu2 : '.' ∉ u2 := fun hx => hu (List.mem_cons_of_mem c hx)
      have hw2 : '.' ∉ w2 := fun hx => hw (List.mem_cons_of_mem c hx)
      obtain ⟨ha, hb⟩ := ih w2 hu2 hw2 h2
      exact ⟨by rw [ha], hb⟩

/-- C9 (amended): the cache of `useDimensionData` is keyed by the string
`Scenarios ++ "." ++ Regions`. When neither Scenarios value contains a dot,
distinct selection tuples yield distinct keys; the key is looked up before
fetching, so a cache hit is served without issuing a fetch, and a miss
fetches and stores the result under the tuple's key. Tuples whose
concatenations coincide share one entry (see the counterexample). -/
theorem c9_cache_keyed_by_tuple :
    (∀ (s r s2 r2 : String), '.' ∉ s.data → '.' ∉ s2.data →
        cacheKey s r = cacheKey s2 r2 → s = s2 ∧ r = r2)
    ∧ (∀ (cache : List (String × List DimRow)) (s r : String) (v fr : List DimRow),
        cacheGet cache (cacheKey s r) = some v →
        useDimensionDataEffect cache (some s) (some r) fr = ⟨cache, some v, none⟩)
    ∧ (∀ (cache : List (String × List DimRow)) (s r : String) (fr : List DimRow),
        cacheGet cache (cacheKey s r) = none →
        useDimensionDataEffect cache (some s) (some r) fr
          = ⟨cacheSet cache (cacheKey s r) fr, some fr,
              some ("/" ++ s ++ "/" ++ r ++ ".json")⟩) := by
  refine ⟨?_, ?_, ?_⟩
  · intro s r s2 r2 hs hs2 h
    have hd : s.data ++ '.' :: r.data = s2.data ++ '.' :: r2.data := by
      have h1 := String.ext_iff.1 h
      simpa [cacheKey, List.append_assoc] using h1
    obtain ⟨h1, h2⟩ := append_dot_inj s.data s2.data hs hs2 hd
    exact ⟨String.ext h1, String.ext h2⟩
  · intro cache s r v fr hget
    unfold useDimensionDataEffect
    simp [hget]
  · intro cache s r fr hget
    unfold useDimensionDataEffect
    simp [hget]

theorem c9_cache_keyed_by_tuple_witness :
    (("a" : String) = "a" ∧ ("b" : String) = "b")
    ∧ useDimensionDataEffect [(cacheKey "a" "b", [⟨"x", .fin 1, .fin 2⟩])]
        (some "a") (some "b") []
      = ⟨[(cacheKey "a" "b", [⟨"x", .fin 1, .fin 2⟩])], some [⟨"x", .fin 1, .fin 2⟩], none⟩
    ∧ useDimensionDataEffect [] (some "a") (some "b") [⟨"x", .fin 1, .fin 2⟩]
      = ⟨cacheSet [] (cacheKey "a" "b") [⟨"x", .fin 1, .fin 2⟩],
          some [⟨"x", .fin 1, .fin 2⟩], some ("/" ++ "a" ++ "/" ++ "b" ++ ".json")⟩ :=
  ⟨c9_cache_keyed_by_tuple.1 "a" "b" "a" "b" (by decide) (by decide) rfl,
   c9_cache_keyed_by_tuple.2.1 [(cacheKey "a" "b", [⟨"x", .fin 1, .fin 2⟩])]
     "a" "b" [⟨"x", .fin 1, .fin 2⟩] [] rfl,
   c9_cache_keyed_by_tuple.2.2 [] "a" "b" [⟨"x", .fin 1, .fin 2⟩] rfl⟩

/-- C9 (counterexample): the distinct selection tuples `("a.b", "c")` and
`("a", "b.c")` produce the same cache key, so after a fetch for the first,
a lookup for the second is a cache hit: it issues no fetch and is served the
first tuple's data. -/
theorem c9_counterexample_key_collision :
    cacheKey "a.b" "c" = cacheKey "a" "b.c"
    ∧ (("a.b", "c") : String × String) ≠ ("a", "b.c")
    ∧ (useDimensionDataEffect
        (useDimensionDataEffect [] (some "a.b") (some "c") [⟨"x", .fin 1, .fin 2⟩]).cache
        (some "a") (some "b.c") [⟨"y", .fin 3, .fin 4⟩]).fetched = none
    ∧ (useDimensionDataEffect
        (useDimensionDataEffect [] (some "a.b") (some "c") [⟨"x", .fin 1, .fin 2⟩]).cache
        (some "a") (some "b.c") [⟨"y", .fin 3, .fin 4⟩]).setData
      = some [⟨"x", .fin 1, .fin 2⟩] := by
  refine ⟨rfl, by decide, rfl, rfl⟩

theorem splitCRLFAux_no_crlf (cs acc : List Char) :
    ¬ List.IsInfix ['\r', '\n'] cs → splitCRLFAux cs acc = [acc.reverse ++ cs] := by
  induction cs, acc using splitCRLFAux.induct with
  | case1 acc =>
    intro _
    simp [splitCRLFAux]
  | case2 rest acc =>
    intro h
    exact absurd ⟨[], rest, rfl⟩ h
  | case3 c rest acc hne ih =>
    intro h
    have hrest : ¬ List.IsInfix ['\r', '\n'] rest := by
      rintro ⟨s, t, hst⟩
      exact h ⟨c :: s, t, by rw [List.cons_append, List.cons_append, hst]⟩
    rw [splitCRLFAux.eq_3 acc c rest hne, ih hrest]
    simp

/-- C10: the build-time parser of `parse.mjs` splits only at CRLF: for any
input whose trimmed text contains no `\r\n`, the whole trimmed text becomes
the single header line and the parse yields zero records — while the in-app
parser, splitting at LF too, extracts a record from the same LF-separated
text. -/
theorem c10_mjs_splits_only_at_crlf :
    (∀ csv : String, ¬ List.IsInfix ['\r', '\n'] (jsTrim csv.data) →
        splitCRLF (jsTrim csv.data) = [jsTrim csv.data] ∧ mjsParse csv = .ok [])
    ∧ mjsParse "Region,Scenario,Variable,Year,Value\nON,Base,Wind,2020,5" = .ok []
    ∧ useDataParse "Region,Scenario,Variable,Year,Value\nON,Base,Wind,2020,5"
        = .ok [⟨"ON", "Base", "Wind", .fin 2020, .fin 5⟩] := by
  refine ⟨?_, rfl, ?_⟩
  · intro csv h
    have hs : splitCRLF (jsTrim csv.data) = [jsTrim csv.data] := by
      have h1 := splitCRLFAux_no_crlf (jsTrim csv.data) [] h
      simpa [splitCRLF] using h1
    refine ⟨hs, ?_⟩
    unfold mjsParse
    rw [hs]
    rfl
  · simp [useDataParse,
      show rawParse ("Region,Scenario,Variable,Year,Value\nON,Base,Wind,2020,5").data
        = .ok [⟨"ON", "Base", "Wind", .fin 2020, .fin 5⟩] from rfl,
      Except.map, jsSortByYear]

theorem c10_mjs_splits_only_at_crlf_witness :
    splitCRLF (jsTrim ("a,b\nc,d" : String).data) = [jsTrim ("a,b\nc,d" : String).data]
    ∧ mjsParse "a,b\nc,d" = .ok [] :=
  c10_mjs_splits_only_at_crlf.1 "a,b\nc,d" (by decide)

end CEF
